import Mathlib

/-!
Shallow embedding of the yt2mp3 Flask service (src/app.py) and proofs of the
specification claims C1–C10.  Strings are modelled as `List Char`; the external
yt-dlp capability and the filesystem are modelled as explicit environment
records threaded through the handlers.  Python's `\s` (whitespace) class is
modelled over its ASCII members, which is the fragment exercised by every
claim.
-/

namespace YT2MP3

/-- Strings from the Python source, modelled as lists of characters. -/
abbrev Str := List Char

/-! ## Configuration constants (app.py lines 21–22) -/

/-- `MAX_DOWNLOADS_PER_SESSION = 50` -/
def MAX_DOWNLOADS_PER_SESSION : Nat := 50

/-- `ALLOWED_QUALITIES = ['128', '192', '256', '320']` -/
def ALLOWED_QUALITIES : List Str :=
  ["128".toList, "192".toList, "256".toList, "320".toList]

/-! ## Filename sanitizer (app.py `sanitize_filename`, lines 90–100) -/

/-- The characters removed by `re.sub(r'[<>:"/\\|?*]', '', filename)`. -/
def invalidChar (c : Char) : Bool :=
  c == '<' || c == '>' || c == ':' || c == '"' || c == '/' ||
  c == '\\' || c == '|' || c == '?' || c == '*'

/-- Python's `\s` class / `str.strip` whitespace, ASCII fragment. -/
def pySpace (c : Char) : Bool :=
  c == ' ' || c == '\t' || c == '\n' || c == '\r' || c == '\x0b' || c == '\x0c'

/-- `re.sub(r'\s+', ' ', filename)`: each maximal run of whitespace becomes a
single `' '`. -/
def collapseWS : List Char → List Char
  | [] => []
  | [c] => if pySpace c then [' '] else [c]
  | a :: b :: r =>
    if pySpace a then
      if pySpace b then collapseWS (b :: r) else ' ' :: collapseWS (b :: r)
    else a :: collapseWS (b :: r)

/-- Remove trailing whitespace (the right half of `str.strip`). -/
def stripTrailing : List Char → List Char
  | [] => []
  | c :: r =>
    match stripTrailing r with
    | [] => if pySpace c then [] else [c]
    | r' => c :: r'

/-- `str.strip()`: drop leading and trailing whitespace. -/
def stripWS (l : Str) : Str := stripTrailing (l.dropWhile pySpace)

/-- `sanitize_filename` (app.py lines 90–100): strip invalid characters,
collapse whitespace runs, strip, truncate to 100 characters, and fall back to
`"download"` when empty. -/
def sanitize_filename (filename : Str) : Str :=
  let f1 := filename.filter (fun c => !invalidChar c)
  let f2 := collapseWS f1
  let f3 := stripWS f2
  let f4 := if f3.length > 100 then f3.take 100 else f3
  if f4 = [] then "download".toList else f4

/-! ## URL validator (app.py `is_valid_youtube_url`, lines 61–64)

The regex
`^(https?:\/\/)?(www\.)?(youtube\.com\/(watch\?v=|embed\/|v\/)|youtu\.be\/)[\w-]+`
is used with `re.match`, i.e. anchored at the start only.  A match exists iff
some choice of the optional scheme, the optional `www.` and one of the four
host/path alternatives is a literal prefix of the input and is followed by at
least one `[\w-]` character. -/

/-- `[\w-]` over ASCII: letters, digits, underscore, hyphen. -/
def isWordDash (c : Char) : Bool :=
  c.isAlpha || c.isDigit || c == '_' || c == '-'

/-- Alternatives for the optional `(https?:\/\/)?` group. -/
def schemeOpts : List Str := [[], "http://".toList, "https://".toList]

/-- Alternatives for the optional `(www\.)?` group. -/
def wwwOpts : List Str := [[], "www.".toList]

/-- Alternatives for `(youtube\.com\/(watch\?v=|embed\/|v\/)|youtu\.be\/)`. -/
def hostOpts : List Str :=
  ["youtube.com/watch?v=".toList, "youtube.com/embed/".toList,
   "youtube.com/v/".toList, "youtu.be/".toList]

/-- The literal prefixes the regex can consume before `[\w-]+`. -/
def urlLiteralHeads : List Str :=
  schemeOpts.flatMap fun a => wwwOpts.flatMap fun b => hostOpts.map fun h => a ++ b ++ h

/-- Does `p` occur as a literal prefix of `s`, followed by a `[\w-]` char? -/
def matchesHead (p s : Str) : Bool :=
  p.isPrefixOf s &&
    match s.drop p.length with
    | c :: _ => isWordDash c
    | [] => false

/-- `is_valid_youtube_url` (app.py lines 61–64). -/
def is_valid_youtube_url (url : Str) : Bool :=
  urlLiteralHeads.any (fun p => matchesHead p url)

/-! ## Retention reaper (app.py `clean_old_files`, lines 32–42)

The directory is a list of entries; `removeFails` records whether `os.remove`
would raise for that entry.  The whole loop body sits inside a single
`try/except`, so the first failing removal aborts the remainder of the sweep. -/

/-- One directory entry as seen by `clean_old_files`. -/
structure FileEnt where
  name : Str
  mtime : Nat
  isFile : Bool
  removeFails : Bool
deriving DecidableEq, Repr

/-- The `for filename in os.listdir(...)` loop of `clean_old_files` (app.py
lines 36–40): an exception from `os.remove` propagates to the outer `except`,
ending the sweep with all remaining entries untouched. -/
def cleanLoop (oneHourAgo : Nat) : List FileEnt → List FileEnt
  | [] => []
  | f :: rest =>
    if f.isFile && decide (f.mtime < oneHourAgo) then
      if f.removeFails then f :: rest
      else cleanLoop oneHourAgo rest
    else f :: cleanLoop oneHourAgo rest

/-- `clean_old_files` at time `now` (`one_hour_ago = time.time() - 3600`). -/
def clean_old_files (now : Nat) (files : List FileEnt) : List FileEnt :=
  cleanLoop (now - 3600) files

/-! ## Metadata resolver (app.py `get_video_info`, lines 102–157)

The call into yt-dlp (`ydl.extract_info`) is the external capability; its
outcome — either a metadata record or the exception's message string — is an
input to the model.  The function itself maps a raised message through the
keyword checks of lines 140–157, degrading to a synthesized fallback title
when none matches. -/

/-- Metadata record produced by `get_video_info` (title/duration/thumbnail/
uploader, with the `info.get` defaults already applied by the environment). -/
structure VideoInfo where
  title : Str
  duration : Str
  thumbnail : Str
  uploader : Str
deriving DecidableEq, Repr

/-- `str.lower()`, ASCII fragment. -/
def lowerStr (l : Str) : Str := l.map Char.toLower

/-- Python's `needle in hay` substring test. -/
def containsSub (needle : Str) : Str → Bool
  | [] => needle.isEmpty
  | c :: rest => needle.isPrefixOf (c :: rest) || containsSub needle rest

/-- `re.search(r'[?&]v=([^&]+)', url)`: first `?v=` or `&v=` occurrence with a
non-empty capture up to the next `&`. -/
def extractVideoId : Str → Option Str
  | [] => none
  | c :: rest =>
    (if c == '?' || c == '&' then
      match rest with
      | 'v' :: '=' :: r =>
        let cap := r.takeWhile (fun d => d != '&')
        if cap = [] then none else some cap
      | _ => none
     else none).orElse (fun _ => extractVideoId rest)

/-- Error message raised at app.py line 142 (and 239). -/
def unavailableMsg : Str :=
  "The video is not available or accessible. This could be due to regional restrictions, the video being private, or network connectivity issues.".toList

/-- Error message raised at app.py line 144 (and 241). -/
def copyrightMsg : Str :=
  "The video cannot be downloaded due to copyright restrictions.".toList

/-- Error message raised at app.py line 146. -/
def infoTimeoutMsg : Str :=
  "The connection timed out. Please try again or use a different video URL.".toList

/-- Error message raised at app.py line 243. -/
def dlTimeoutMsg : Str :=
  "The download timed out. Please try again or use a different video URL.".toList

/-- `get_video_info` (app.py lines 102–157).  `raw` is the outcome of the
external `ydl.extract_info` call: `.ok` carries the extracted fields, `.error`
the exception's message. -/
def get_video_info (url : Str) (raw : Except Str VideoInfo) : Except Str VideoInfo :=
  match raw with
  | .ok i => .ok i
  | .error e =>
    let le := lowerStr e
    if containsSub "unavailable".toList le then .error unavailableMsg
    else if containsSub "copyright".toList le then .error copyrightMsg
    else if containsSub "timeout".toList le then .error infoTimeoutMsg
    else
      .ok { title := "YouTube Video ".toList ++ ((extractVideoId url).getD "unknown".toList)
            duration := [], thumbnail := [], uploader := [] }

/-! ## Conversion job runner (app.py `download_video`, lines 159–245) -/

/-- Result dictionary returned by a successful `download_video`. -/
structure DlResult where
  success : Bool
  downloadUrl : Str
  filename : Str
  title : Str
  filesize : Nat
deriving DecidableEq, Repr

/-- Environment for one job: outcomes of the external yt-dlp calls and of the
filesystem operations (the module import is assumed to succeed). -/
structure DlEnv where
  /-- Outcome of `ydl.extract_info` inside `get_video_info` (line 129). -/
  infoRaw : Except Str VideoInfo
  /-- Exception message of `ydl.download([url])` (line 203), if it raises. -/
  downloadErr : Option Str
  /-- First `os.listdir` entry starting with the temp prefix (lines 207–210). -/
  found : Option Str
  /-- `os.path.exists(downloaded_file)` (line 212). -/
  foundExists : Bool
  /-- `os.path.getsize(downloaded_file)` (line 216). -/
  filesize : Nat
  /-- Exception message of `os.rename` (line 224), if it raises. -/
  renameErr : Option Str
deriving Repr

/-- The `except` clause of `download_video` (app.py lines 234–245): remap the
caught message through the keyword checks. -/
def remapDownloadError (m : Str) : Str :=
  let lm := lowerStr m
  if containsSub "unavailable".toList lm then unavailableMsg
  else if containsSub "copyright".toList lm then copyrightMsg
  else if containsSub "timeout".toList lm then dlTimeoutMsg
  else "Download failed: ".toList ++ m

/-- The `try` body of `download_video` (app.py lines 161–232). -/
def download_video_body (url : Str) (env : DlEnv) : Except Str DlResult :=
  match get_video_info url env.infoRaw with
  | .error e => .error e
  | .ok info =>
    match env.downloadErr with
    | some m => .error m
    | none =>
      match env.found with
      | none => .error "Download failed: File not found".toList
      | some _ =>
        if !env.foundExists then .error "Download failed: File not found".toList
        else
          match env.renameErr with
          | some m => .error m
          | none =>
            let newFilename := sanitize_filename info.title ++ ".mp3".toList
            .ok { success := true
                  downloadUrl := "downloads/".toList ++ newFilename
                  filename := newFilename
                  title := info.title
                  filesize := env.filesize }

/-- `download_video` (app.py lines 159–245): the `try` body with the
`except` clause's message remapping applied to every failure. -/
def download_video (url : Str) (_quality : Str) (env : DlEnv) : Except Str DlResult :=
  match download_video_body url env with
  | .ok r => .ok r
  | .error m => .error (remapDownloadError m)

/-! ## Synchronous endpoint (app.py `download_handler`, lines 247–333) -/

/-- Observable outcome of one `POST /download.php` request: HTTP status, the
body's `success`/`error` fields, the session counter afterwards (`none` when
the session was never touched), whether any external yt-dlp call was made,
and the final artifact written, if any. -/
structure SyncOutcome where
  status : Nat
  success : Bool
  error : Option Str
  sessionAfter : Option Nat
  externalCalled : Bool
  artifactWritten : Option Str
deriving DecidableEq, Repr

/-- A 400 rejection issued before the session is touched. -/
def rejectOutcome (msg : Str) (sess : Option Nat) : SyncOutcome :=
  { status := 400, success := false, error := some msg,
    sessionAfter := sess, externalCalled := false, artifactWritten := none }

/-- `download_handler` (app.py lines 247–333), POST branch.  `sess` is the
session's `downloads` counter (`none` when the key is absent). -/
def download_handler (url quality action : Str) (sess : Option Nat) (env : DlEnv) :
    SyncOutcome :=
  if url = [] then rejectOutcome "URL is required".toList sess
  else if ¬ quality ∈ ALLOWED_QUALITIES then
    rejectOutcome "Invalid quality selection".toList sess
  else if ¬ is_valid_youtube_url url then
    rejectOutcome "Invalid YouTube URL".toList sess
  else
    -- line 282: `if 'downloads' not in session: session['downloads'] = 0`
    let d := sess.getD 0
    if d ≥ MAX_DOWNLOADS_PER_SESSION then
      { status := 400, success := false,
        error := some "Download limit reached for this session".toList,
        sessionAfter := some d, externalCalled := false, artifactWritten := none }
    else if action = "getInfo".toList then
      match get_video_info url env.infoRaw with
      | .ok _ =>
        { status := 200, success := true, error := none,
          sessionAfter := some d, externalCalled := true, artifactWritten := none }
      | .error e =>
        { status := 400, success := false, error := some e,
          sessionAfter := some d, externalCalled := true, artifactWritten := none }
    else
      match download_video url quality env with
      | .ok r =>
        -- line 304: `session['downloads'] = session.get('downloads', 0) + 1`
        { status := 200, success := true, error := none,
          sessionAfter := some (d + 1), externalCalled := true,
          artifactWritten := some r.filename }
      | .error e =>
        { status := 400, success := false, error := some e,
          sessionAfter := some d, externalCalled := true, artifactWritten := none }

/-! ## Streaming endpoint (app.py `download_progress_handler` and
`progress_stream`, lines 335–450) -/

/-- Final result payload attached to the terminal success event. -/
structure Payload where
  success : Bool
  downloadUrl : Str
  filename : Str
  title : Str
  filesize : Nat
deriving DecidableEq, Repr

/-- One server-sent event of the progress stream. -/
structure Event where
  downloadId : Str
  progress : Int
  message : Option Str := none
  error : Option Str := none
  data : Option Payload := none
deriving DecidableEq, Repr

/-- A non-terminal progress event. -/
def progEvt (dlid : Str) (p : Int) (msg : Str) : Event :=
  { downloadId := dlid, progress := p, message := some msg }

/-- The terminal error event (`progress = -1`). -/
def errEvt (dlid : Str) (m : Str) : Event :=
  { downloadId := dlid, progress := -1, error := some m }

/-- The terminal success event (`progress = 100`, payload attached). -/
def doneEvt (dlid : Str) (msg : Str) (pl : Payload) : Event :=
  { downloadId := dlid, progress := 100, message := some msg, data := some pl }

/-- `progress_stream` (app.py lines 352–448): the full list of events the
generator yields, given the environment for the job. -/
def progress_stream (dlid url quality : Str) (env : DlEnv) : List Event :=
  let e0 := progEvt dlid 0 "Starting download...".toList
  let e10 := progEvt dlid 10 "Getting video information...".toList
  match get_video_info url env.infoRaw with
  | .error m => [e0, e10, errEvt dlid m]
  | .ok info =>
    let e25 := progEvt dlid 25 ("Starting download: ".toList ++ info.title)
    let e40 := progEvt dlid 40 "Downloading video...".toList
    match env.downloadErr with
    | some m => [e0, e10, e25, e40, errEvt dlid m]
    | none =>
      let e80 := progEvt dlid 80 "Converting to MP3...".toList
      match env.found with
      | none => [e0, e10, e25, e40, e80, errEvt dlid "Download failed: File not found".toList]
      | some _ =>
        if !env.foundExists then
          [e0, e10, e25, e40, e80, errEvt dlid "Download failed: File not found".toList]
        else
          let e90 := progEvt dlid 90 "Processing filename...".toList
          match env.renameErr with
          | some m => [e0, e10, e25, e40, e80, e90, errEvt dlid m]
          | none =>
            let newFilename := sanitize_filename info.title ++ ".mp3".toList
            let pl : Payload :=
              { success := true
                downloadUrl := "downloads/".toList ++ newFilename
                filename := newFilename
                title := info.title
                filesize := env.filesize }
            [e0, e10, e25, e40, e80, e90,
             progEvt dlid 95 "Finalizing...".toList,
             doneEvt dlid "Download completed!".toList pl]

/-- `download_progress_handler` (app.py lines 335–450): validation, then the
stream.  Note: `quality` is read (line 339) but never validated here. -/
def download_progress_handler (url quality dlid : Str) (env : DlEnv) : List Event :=
  if url = [] then [errEvt dlid "URL is required".toList]
  else if ¬ is_valid_youtube_url url then [errEvt dlid "Invalid YouTube URL".toList]
  else progress_stream dlid url quality env

/-! ## Lemmas about the sanitizer -/

/-- No two adjacent whitespace characters. -/
def noAdjSpace : List Char → Bool
  | [] => true
  | [_] => true
  | a :: b :: r => (!(pySpace a && pySpace b)) && noAdjSpace (b :: r)

theorem noAdjSpace_tail {a : Char} {l : List Char} (h : noAdjSpace (a :: l) = true) :
    noAdjSpace l = true := by
  cases l with
  | nil => rfl
  | cons b t => simp [noAdjSpace] at h; exact h.2

theorem noAdjSpace_append_left :
    ∀ (xs ys : List Char), noAdjSpace (xs ++ ys) = true → noAdjSpace xs = true
  | [], _, _ => rfl
  | [_], _, _ => rfl
  | a :: b :: t, ys, h => by
    simp only [List.cons_append, noAdjSpace, Bool.and_eq_true] at h ⊢
    exact ⟨h.1, noAdjSpace_append_left (b :: t) ys h.2⟩

theorem noAdjSpace_take {l : List Char} (n : Nat) (h : noAdjSpace l = true) :
    noAdjSpace (l.take n) = true :=
  noAdjSpace_append_left _ _ (by rw [List.take_append_drop]; exact h)

theorem noAdjSpace_dropWhile {p : Char → Bool} :
    ∀ {l : List Char}, noAdjSpace l = true → noAdjSpace (l.dropWhile p) = true
  | [], _ => rfl
  | a :: r, h => by
    rw [List.dropWhile_cons]
    cases hp : p a with
    | true => simp only [if_pos]; exact noAdjSpace_dropWhile (noAdjSpace_tail h)
    | false => simpa using h

theorem mem_of_mem_dropWhile {p : Char → Bool} {c : Char} :
    ∀ {l : List Char}, c ∈ l.dropWhile p → c ∈ l
  | [], h => by simp [List.dropWhile] at h
  | a :: r, h => by
    rw [List.dropWhile_cons] at h
    cases hp : p a with
    | true =>
      rw [hp] at h; simp only [if_pos] at h
      exact List.mem_cons_of_mem a (mem_of_mem_dropWhile h)
    | false => rw [hp] at h; simpa using h

theorem headq_dropWhile {p : Char → Bool} {c : Char} :
    ∀ {l : List Char}, (l.dropWhile p).head? = some c → p c = false
  | [], h => by simp [List.dropWhile] at h
  | a :: r, h => by
    rw [List.dropWhile_cons] at h
    cases hp : p a with
    | true => rw [hp] at h; simp only [if_pos] at h; exact headq_dropWhile h
    | false => rw [hp] at h; simp at h; exact h ▸ hp

theorem dropWhile_eq_self_of_headq {p : Char → Bool} {l : List Char}
    (h : ∀ c, l.head? = some c → p c = false) : l.dropWhile p = l := by
  cases l with
  | nil => rfl
  | cons a r => rw [List.dropWhile_cons, h a (by rfl)]; simp

theorem mem_collapseWS {c : Char} :
    ∀ {l : List Char}, c ∈ collapseWS l → c ∈ l ∨ c = ' '
  | [], h => by simp [collapseWS] at h
  | [a], h => by
    cases hp : pySpace a <;> simp [collapseWS, hp] at h
    · left; simp [h]
    · right; exact h
  | a :: b :: r, h => by
    simp only [collapseWS] at h
    cases hpa : pySpace a with
    | true =>
      cases hpb : pySpace b with
      | true =>
        rw [hpa, hpb] at h; simp only [if_pos] at h
        rcases mem_collapseWS h with h1 | h1
        · exact Or.inl (List.mem_cons_of_mem a h1)
        · exact Or.inr h1
      | false =>
        rw [hpa, hpb] at h; simp at h
        rcases h with h1 | h1
        · exact Or.inr h1
        · rcases mem_collapseWS h1 with h2 | h2
          · exact Or.inl (List.mem_cons_of_mem a h2)
          · exact Or.inr h2
    | false =>
      rw [hpa] at h; simp at h
      rcases h with h1 | h1
      · exact Or.inl (by simp [h1])
      · rcases mem_collapseWS h1 with h2 | h2
        · exact Or.inl (List.mem_cons_of_mem a h2)
        · exact Or.inr h2

theorem collapseWS_space {c : Char} :
    ∀ {l : List Char}, c ∈ collapseWS l → pySpace c = true → c = ' '
  | [], h, _ => by simp [collapseWS] at h
  | [a], h, hc => by
    cases hp : pySpace a <;> simp [collapseWS, hp] at h
    · rw [h] at hc; rw [hc] at hp; cases hp
    · exact h
  | a :: b :: r, h, hc => by
    simp only [collapseWS] at h
    cases hpa : pySpace a with
    | true =>
      cases hpb : pySpace b with
      | true =>
        rw [hpa, hpb] at h; simp only [if_pos] at h
        exact collapseWS_space h hc
      | false =>
        rw [hpa, hpb] at h; simp at h
        rcases h with h1 | h1
        · exact h1
        · exact collapseWS_space h1 hc
    | false =>
      rw [hpa] at h; simp at h
      rcases h with h1 | h1
      · rw [h1] at hc; rw [hc] at hpa; cases hpa
      · exact collapseWS_space h1 hc

theorem collapseWS_headq :
    ∀ {l : List Char} {c : Char} {r' : List Char}, collapseWS l = c :: r' →
      (l.head? = some c ∧ pySpace c = false) ∨
      (c = ' ' ∧ ∃ h t, l = h :: t ∧ pySpace h = true)
  | [], c, r', h => by simp [collapseWS] at h
  | [a], c, r', h => by
    cases hp : pySpace a <;> simp [collapseWS, hp] at h
    · exact Or.inl ⟨by simp [h.1], h.1 ▸ hp⟩
    · exact Or.inr ⟨h.1.symm, a, [], rfl, hp⟩
  | a :: b :: r, c, r', h => by
    simp only [collapseWS] at h
    cases hpa : pySpace a with
    | true =>
      cases hpb : pySpace b with
      | true =>
        rw [hpa, hpb] at h; simp only [if_pos] at h
        rcases collapseWS_headq h with h1 | h1
        · rw [List.head?_cons, Option.some.injEq] at h1
          rw [← h1.1] at h1
          rw [hpb] at h1
          exact absurd h1.2 (by simp)
        · exact Or.inr ⟨h1.1, a, b :: r, rfl, hpa⟩
      | false =>
        rw [hpa, hpb] at h; simp at h
        exact Or.inr ⟨h.1.symm, a, b :: r, rfl, hpa⟩
    | false =>
      rw [hpa] at h; simp at h
      exact Or.inl ⟨by simp [h.1], h.1 ▸ hpa⟩

theorem noAdjSpace_collapseWS :
    ∀ (l : List Char), noAdjSpace (collapseWS l) = true
  | [] => rfl
  | [a] => by cases hp : pySpace a <;> simp [collapseWS, hp, noAdjSpace]
  | a :: b :: r => by
    simp only [collapseWS]
    cases hpa : pySpace a with
    | true =>
      cases hpb : pySpace b with
      | true =>
        simp only [if_pos]
        exact noAdjSpace_collapseWS (b :: r)
      | false =>
        simp only [Bool.false_eq_true, if_pos, if_neg, not_false_eq_true]
        cases hX : collapseWS (b :: r) with
        | nil => rfl
        | cons c r' =>
          have hrec := noAdjSpace_collapseWS (b :: r)
          rw [hX] at hrec
          rcases collapseWS_headq hX with h1 | h1
          · simp only [noAdjSpace, Bool.and_eq_true]
            refine ⟨by simp [h1.2], hrec⟩
          · rcases h1 with ⟨_, hh, ht, heq, hsp⟩
            rw [List.cons.injEq] at heq
            rw [← heq.1] at hsp
            rw [hsp] at hpb
            cases hpb
    | false =>
      simp only [Bool.false_eq_true, if_neg, not_false_eq_true]
      cases hX : collapseWS (b :: r) with
      | nil => simp [noAdjSpace]
      | cons c r' =>
        have hrec := noAdjSpace_collapseWS (b :: r)
        rw [hX] at hrec
        simp only [noAdjSpace, Bool.and_eq_true]
        exact ⟨by simp [hpa], hrec⟩

theorem collapseWS_eq_self :
    ∀ {l : List Char}, (∀ c ∈ l, pySpace c = true → c = ' ') →
      noAdjSpace l = true → collapseWS l = l
  | [], _, _ => rfl
  | [a], hsp, _ => by
    cases hp : pySpace a with
    | true => simp [collapseWS, hp, hsp a (List.mem_singleton_self a) hp]
    | false => simp [collapseWS, hp]
  | a :: b :: r, hsp, hadj => by
    simp only [noAdjSpace, Bool.and_eq_true] at hadj
    have ih := collapseWS_eq_self
      (fun c hc h => hsp c (List.mem_cons_of_mem a hc) h) hadj.2
    cases hpa : pySpace a with
    | true =>
      have hb : pySpace b = false := by
        cases hpb : pySpace b with
        | true => rw [hpa, hpb] at hadj; simp at hadj
        | false => rfl
      simp only [collapseWS, hpa, hb, Bool.false_eq_true, if_pos, if_neg,
        not_false_eq_true, ih]
      rw [hsp a (List.mem_cons_self a (b :: r)) hpa]
    | false => simp [collapseWS, hpa, ih]

theorem stripTrailing_cons (a : Char) (l : List Char) :
    stripTrailing (a :: l) =
      (match stripTrailing l with
       | [] => if pySpace a then [] else [a]
       | r' => a :: r') := rfl

theorem stripTrailing_append :
    ∀ (l : List Char), ∃ t, stripTrailing l ++ t = l
  | [] => ⟨[], rfl⟩
  | c :: r => by
    rcases stripTrailing_append r with ⟨t', ht'⟩
    cases hs : stripTrailing r with
    | nil =>
      cases hp : pySpace c with
      | true => exact ⟨c :: r, by simp [stripTrailing, hs, hp]⟩
      | false => exact ⟨r, by simp [stripTrailing, hs, hp]⟩
    | cons d ds =>
      refine ⟨t', ?_⟩
      rw [hs] at ht'
      simp only [stripTrailing, hs]
      rw [List.cons_append, ht']

theorem mem_of_mem_stripTrailing {c : Char} {l : List Char}
    (h : c ∈ stripTrailing l) : c ∈ l := by
  rcases stripTrailing_append l with ⟨t, ht⟩
  rw [← ht]
  exact List.mem_append_left t h

theorem getLastq_stripTrailing :
    ∀ {l : List Char} {c : Char}, (stripTrailing l).getLast? = some c →
      pySpace c = false
  | [], c, h => by simp [stripTrailing] at h
  | a :: r, c, h => by
    simp only [stripTrailing] at h
    cases hs : stripTrailing r with
    | nil =>
      rw [hs] at h
      cases hp : pySpace a with
      | true => rw [hp] at h; simp at h
      | false => rw [hp] at h; simp at h; rw [← h]; exact hp
    | cons d ds =>
      rw [hs, List.getLast?_cons_cons] at h
      exact getLastq_stripTrailing (hs ▸ h)

theorem stripTrailing_eq_self :
    ∀ {l : List Char}, (∀ c, l.getLast? = some c → pySpace c = false) →
      stripTrailing l = l
  | [], _ => rfl
  | [a], h => by
    have := h a (by rfl)
    simp [stripTrailing, this]
  | a :: b :: r, h => by
    have ih : stripTrailing (b :: r) = b :: r :=
      stripTrailing_eq_self (fun c hc => h c (by rw [List.getLast?_cons_cons]; exact hc))
    rw [stripTrailing_cons, ih]

theorem headq_stripTrailing {l : List Char} {c : Char} {r' : List Char}
    (h : stripTrailing l = c :: r') : l.head? = some c := by
  rcases stripTrailing_append l with ⟨t, ht⟩
  rw [← ht, h]
  rfl

theorem noAdjSpace_stripTrailing {l : List Char} (h : noAdjSpace l = true) :
    noAdjSpace (stripTrailing l) = true := by
  rcases stripTrailing_append l with ⟨t, ht⟩
  exact noAdjSpace_append_left _ t (by rw [ht]; exact h)

theorem headq_take (n : Nat) (l : List Char) :
    (l.take (n + 1)).head? = l.head? := by
  cases l <;> simp

/-! ## Invariants of `sanitize_filename`'s output -/

theorem sanitize_char_facts (x : Str) :
    ∀ c ∈ sanitize_filename x, invalidChar c = false ∧ (pySpace c = true → c = ' ') := by
  intro c hc
  have hdl : ∀ d ∈ ("download".toList : Str),
      invalidChar d = false ∧ (pySpace d = true → d = ' ') := by decide
  have hmain : ∀ d ∈ stripWS (collapseWS (x.filter (fun c => !invalidChar c))),
      invalidChar d = false ∧ (pySpace d = true → d = ' ') := by
    intro d hd
    rw [stripWS] at hd
    have hcf2 : d ∈ collapseWS (x.filter (fun c => !invalidChar c)) :=
      mem_of_mem_dropWhile (mem_of_mem_stripTrailing hd)
    refine ⟨?_, fun hsp => collapseWS_space hcf2 hsp⟩
    rcases mem_collapseWS hcf2 with h1 | h1
    · have := List.of_mem_filter h1
      simpa using this
    · rw [h1]; rfl
  simp only [sanitize_filename] at hc
  split at hc
  · split at hc
    · exact hdl c hc
    · exact hmain c (List.mem_of_mem_take hc)
  · split at hc
    · exact hdl c hc
    · exact hmain c hc

theorem sanitize_noAdj (x : Str) : noAdjSpace (sanitize_filename x) = true := by
  have hmain : noAdjSpace (stripWS (collapseWS (x.filter (fun c => !invalidChar c)))) = true := by
    rw [stripWS]
    exact noAdjSpace_stripTrailing (noAdjSpace_dropWhile (noAdjSpace_collapseWS _))
  simp only [sanitize_filename]
  split
  · split
    · decide
    · exact noAdjSpace_take 100 hmain
  · split
    · decide
    · exact hmain

theorem sanitize_headq (x : Str) {c : Char}
    (h : (sanitize_filename x).head? = some c) : pySpace c = false := by
  have hmain : ∀ d, (stripWS (collapseWS (x.filter (fun c => !invalidChar c)))).head? = some d →
      pySpace d = false := by
    intro d hd
    cases hf : stripWS (collapseWS (x.filter (fun c => !invalidChar c))) with
    | nil => rw [hf] at hd; cases hd
    | cons e r' =>
      rw [hf] at hd
      simp at hd
      rw [stripWS] at hf
      rw [← hd]
      exact headq_dropWhile (headq_stripTrailing hf)
  simp only [sanitize_filename] at h
  split at h
  · split at h
    · simp at h
      rw [← h]
      rfl
    · rw [show (100 : Nat) = 99 + 1 from rfl, headq_take] at h
      exact hmain c h
  · split at h
    · simp at h
      rw [← h]
      rfl
    · exact hmain c h

theorem sanitize_length (x : Str) : (sanitize_filename x).length ≤ 100 := by
  simp only [sanitize_filename]
  split
  case isTrue hlen =>
    split
    · decide
    · rw [List.length_take]
      exact min_le_left _ _
  case isFalse hlen =>
    split
    · decide
    · omega

theorem sanitize_ne_nil (x : Str) : sanitize_filename x ≠ [] := by
  simp only [sanitize_filename]
  split <;> split <;> first | decide | assumption

/-- On a string already satisfying all of the sanitizer's output invariants,
`sanitize_filename` is the identity. -/
theorem sanitize_eq_self {y : Str}
    (h1 : ∀ c ∈ y, invalidChar c = false ∧ (pySpace c = true → c = ' '))
    (h3 : noAdjSpace y = true)
    (h4 : ∀ c, y.head? = some c → pySpace c = false)
    (h5 : ∀ c, y.getLast? = some c → pySpace c = false)
    (h6 : y.length ≤ 100)
    (h7 : y ≠ []) :
    sanitize_filename y = y := by
  have e1 : y.filter (fun c => !invalidChar c) = y :=
    List.filter_eq_self.mpr (fun a ha => by simp [(h1 a ha).1])
  have e2 : collapseWS y = y :=
    collapseWS_eq_self (fun c hc => (h1 c hc).2) h3
  have e3 : stripWS y = y := by
    rw [stripWS, dropWhile_eq_self_of_headq h4]
    exact stripTrailing_eq_self h5
  simp only [sanitize_filename, e1, e2, e3]
  rw [if_neg (show ¬ y.length > 100 by omega), if_neg h7]

theorem mem_of_getLastq {l : List Char} {c : Char} (h : l.getLast? = some c) :
    c ∈ l := by
  rcases List.mem_getLast?_eq_getLast (Option.mem_def.mpr h) with ⟨hne, hceq⟩
  rw [hceq]
  exact List.getLast_mem hne

/-! ## Claims C5 and C9: the sanitizer -/

/-- C9: for every input string, the sanitizer's output has length at most 100,
is never empty (falling back to `"download"`), and contains none of the
characters `< > : " / \ | ? *`. -/
theorem C9_sanitizer_output_bounds (x : Str) :
    (sanitize_filename x).length ≤ 100 ∧ sanitize_filename x ≠ [] ∧
      (sanitize_filename x).all (fun c => !invalidChar c) = true := by
  refine ⟨sanitize_length x, sanitize_ne_nil x, ?_⟩
  rw [List.all_eq_true]
  intro c hc
  simp [(sanitize_char_facts x c hc).1]

theorem C9_witness :
    (sanitize_filename "My<Song>: 1/2".toList).length ≤ 100 ∧
      sanitize_filename "My<Song>: 1/2".toList ≠ [] ∧
      (sanitize_filename "My<Song>: 1/2".toList).all (fun c => !invalidChar c) = true :=
  C9_sanitizer_output_bounds "My<Song>: 1/2".toList

/-- C5 (counterexample): the sanitizer is not idempotent.  A 101-character
input whose 100th character is a space sanitizes to a string with a trailing
space, which a second sanitization strips. -/
theorem C5_counterexample :
    sanitize_filename (sanitize_filename (List.replicate 99 'a' ++ [' ', 'b'])) ≠
      sanitize_filename (List.replicate 99 'a' ++ [' ', 'b']) := by decide

/-- C5 (amended): the sanitizer is idempotent on every input whose sanitized
form does not end in a space — the only way truncation to 100 characters can
break idempotence. -/
theorem C5_sanitize_idempotent_unless_trailing_space (x : Str)
    (h : (sanitize_filename x).getLast? ≠ some ' ') :
    sanitize_filename (sanitize_filename x) = sanitize_filename x := by
  have h5 : ∀ c, (sanitize_filename x).getLast? = some c → pySpace c = false := by
    intro c hc
    cases hp : pySpace c with
    | false => rfl
    | true =>
      have hcmem : c ∈ sanitize_filename x := mem_of_getLastq hc
      have := (sanitize_char_facts x c hcmem).2 hp
      rw [this] at hc
      exact absurd hc h
  exact sanitize_eq_self (sanitize_char_facts x) (sanitize_noAdj x)
    (fun c hc => sanitize_headq x hc) h5 (sanitize_length x) (sanitize_ne_nil x)

theorem C5_witness :
    (sanitize_filename "a<b".toList).getLast? ≠ some ' ' ∧
      sanitize_filename (sanitize_filename "a<b".toList) = sanitize_filename "a<b".toList :=
  ⟨by decide, C5_sanitize_idempotent_unless_trailing_space "a<b".toList (by decide)⟩

/-! ## Claim C10: the URL validator matches a prefix only -/

/-- C10: the validator's regex has no end anchor: any accepted string remains
accepted after appending arbitrary characters. -/
theorem C10_validator_ignores_suffix (s t : Str)
    (h : is_valid_youtube_url s = true) :
    is_valid_youtube_url (s ++ t) = true := by
  rw [is_valid_youtube_url, List.any_eq_true] at h ⊢
  rcases h with ⟨p, hp, hm⟩
  refine ⟨p, hp, ?_⟩
  rw [matchesHead, Bool.and_eq_true] at hm ⊢
  rcases hm with ⟨hpre, hnext⟩
  cases hd : s.drop p.length with
  | nil => rw [hd] at hnext; cases hnext
  | cons c rest =>
    rw [hd] at hnext
    have hlt : p.length < s.length :=
      List.length_lt_of_drop_ne_nil (by rw [hd]; exact List.cons_ne_nil c rest)
    constructor
    · rw [List.isPrefixOf_iff_prefix] at hpre ⊢
      exact hpre.trans (List.prefix_append s t)
    · rw [List.drop_append_of_le_length (Nat.le_of_lt hlt), hd]
      exact hnext

theorem C10_witness :
    is_valid_youtube_url "https://youtu.be/abc123".toList = true ∧
      is_valid_youtube_url ("https://youtu.be/abc123".toList ++ "<<garbage after id>>".toList) = true :=
  ⟨by decide, C10_validator_ignores_suffix _ _ (by decide)⟩

/-! ## Claim C3: the retention reaper -/

/-- C3 (counterexample): with two stale regular files where deleting the first
raises, the sweep aborts and the second stale file survives — contradicting
the claim that an individual deletion failure does not abort the sweep. -/
theorem C3_counterexample :
    clean_old_files 7200
        [⟨"a.mp3".toList, 0, true, true⟩, ⟨"b.mp3".toList, 0, true, false⟩] =
      [⟨"a.mp3".toList, 0, true, true⟩, ⟨"b.mp3".toList, 0, true, false⟩] := by
  decide

theorem cleanLoop_no_failure (cut : Nat) :
    ∀ files : List FileEnt, (∀ f ∈ files, f.removeFails = false) →
      cleanLoop cut files =
        files.filter (fun f => !(f.isFile && decide (f.mtime < cut)))
  | [], _ => rfl
  | f :: rest, h => by
    have hf := h f (List.mem_cons_self f rest)
    have ih := cleanLoop_no_failure cut rest (fun g hg => h g (List.mem_cons_of_mem f hg))
    cases hc : (f.isFile && decide (f.mtime < cut)) with
    | true =>
      simp only [cleanLoop, List.filter_cons, hc, hf, ih]
      simp
    | false =>
      simp only [cleanLoop, List.filter_cons, hc, ih]
      simp

/-- C3 (amended): provided no individual deletion fails, one sweep deletes
exactly the regular files whose modification time is more than one hour in
the past and retains every younger file; a deletion failure, however, aborts
the remainder of the sweep (see the counterexample). -/
theorem C3_reaper_sweep (now : Nat) (files : List FileEnt)
    (h : ∀ f ∈ files, f.removeFails = false) :
    clean_old_files now files =
      files.filter (fun f => !(f.isFile && decide (f.mtime < now - 3600))) :=
  cleanLoop_no_failure (now - 3600) files h

theorem C3_witness :
    clean_old_files 10000
        [⟨"old.mp3".toList, 2800, true, false⟩, ⟨"fresh.mp3".toList, 9400, true, false⟩] =
      [⟨"fresh.mp3".toList, 9400, true, false⟩] := by
  rw [C3_reaper_sweep 10000 _ (by decide)]
  decide

/-! ## Sample environments used by the concrete witnesses -/

/-- A metadata record as the external extractor would return it. -/
def sampleInfo : VideoInfo :=
  { title := "Test Song".toList, duration := "180".toList, thumbnail := [], uploader := [] }

/-- An environment in which every external step succeeds. -/
def sampleEnvOk : DlEnv :=
  { infoRaw := .ok sampleInfo, downloadErr := none,
    found := some "temp_1700000000.mp3".toList, foundExists := true,
    filesize := 777, renameErr := none }

/-- An environment in which the yt-dlp download call raises. -/
def sampleEnvDlFail : DlEnv :=
  { infoRaw := .ok sampleInfo, downloadErr := some "boom".toList,
    found := none, foundExists := false, filesize := 0, renameErr := none }

/-! ## Claim C6: invalid URLs on the synchronous endpoint -/

/-- C6: every request whose URL fails the validator gets a client error from
the synchronous endpoint, the session counter is untouched, no external call
is made and no artifact is written. -/
theorem C6_invalid_url_rejected (url quality action : Str) (sess : Option Nat)
    (env : DlEnv) (h : is_valid_youtube_url url = false) :
    (download_handler url quality action sess env).status = 400 ∧
      (download_handler url quality action sess env).success = false ∧
      (download_handler url quality action sess env).sessionAfter = sess ∧
      (download_handler url quality action sess env).externalCalled = false ∧
      (download_handler url quality action sess env).artifactWritten = none := by
  by_cases hu : url = []
  · simp [download_handler, hu, rejectOutcome]
  · by_cases hq : quality ∈ ALLOWED_QUALITIES
    · simp [download_handler, hu, hq, h, rejectOutcome]
    · simp [download_handler, hu, hq, rejectOutcome]

theorem C6_witness :
    (download_handler "https://vimeo.com/123".toList "320".toList "download".toList
        (some 3) sampleEnvOk).status = 400 ∧
      (download_handler "https://vimeo.com/123".toList "320".toList "download".toList
        (some 3) sampleEnvOk).success = false ∧
      (download_handler "https://vimeo.com/123".toList "320".toList "download".toList
        (some 3) sampleEnvOk).sessionAfter = some 3 ∧
      (download_handler "https://vimeo.com/123".toList "320".toList "download".toList
        (some 3) sampleEnvOk).externalCalled = false ∧
      (download_handler "https://vimeo.com/123".toList "320".toList "download".toList
        (some 3) sampleEnvOk).artifactWritten = none :=
  C6_invalid_url_rejected _ _ _ _ _ (by decide)

/-! ## Claim C8: the session quota gate -/

/-- C8: once the session counter has reached the limit of 50, a request that
passes URL and quality validation is rejected with the quota-exceeded client
error before any external call. -/
theorem C8_quota_exceeded_rejected (url quality action : Str) (d : Nat) (env : DlEnv)
    (hu : url ≠ []) (hq : quality ∈ ALLOWED_QUALITIES)
    (hv : is_valid_youtube_url url = true) (hd : MAX_DOWNLOADS_PER_SESSION ≤ d) :
    (download_handler url quality action (some d) env).status = 400 ∧
      (download_handler url quality action (some d) env).error =
        some "Download limit reached for this session".toList ∧
      (download_handler url quality action (some d) env).externalCalled = false ∧
      (download_handler url quality action (some d) env).sessionAfter = some d := by
  simp [download_handler, hu, hq, hv, hd]

theorem C8_witness :
    (download_handler "https://youtu.be/abc".toList "320".toList "download".toList
        (some 50) sampleEnvOk).status = 400 ∧
      (download_handler "https://youtu.be/abc".toList "320".toList "download".toList
        (some 50) sampleEnvOk).error =
        some "Download limit reached for this session".toList ∧
      (download_handler "https://youtu.be/abc".toList "320".toList "download".toList
        (some 50) sampleEnvOk).externalCalled = false ∧
      (download_handler "https://youtu.be/abc".toList "320".toList "download".toList
        (some 50) sampleEnvOk).sessionAfter = some 50 :=
  C8_quota_exceeded_rejected _ _ _ _ _ (by decide) (by decide) (by decide) (by decide)

/-! ## Claim C2: when the session counter is incremented -/

/-- C2 (counterexample): a conversion job that is attempted and fails does not
increment the session counter — the increment at app.py line 304 is inside
the `try` after `download_video` returns, so the `except` path skips it. -/
theorem C2_counterexample :
    (download_handler "https://youtu.be/abc".toList "320".toList "download".toList
        (some 0) sampleEnvDlFail).externalCalled = true ∧
      (download_handler "https://youtu.be/abc".toList "320".toList "download".toList
        (some 0) sampleEnvDlFail).success = false ∧
      (download_handler "https://youtu.be/abc".toList "320".toList "download".toList
        (some 0) sampleEnvDlFail).sessionAfter = some 0 := by decide

/-- C2 (amended): in the synchronous download path the session counter is
incremented exactly once after a successful conversion job, and left unchanged
when the attempted conversion fails. -/
theorem C2_increment_only_after_success (url quality action : Str) (sess : Option Nat)
    (env : DlEnv)
    (hu : url ≠ []) (hq : quality ∈ ALLOWED_QUALITIES)
    (hv : is_valid_youtube_url url = true)
    (hd : sess.getD 0 < MAX_DOWNLOADS_PER_SESSION)
    (ha : action ≠ "getInfo".toList) :
    ((∃ r, download_video url quality env = .ok r) →
        (download_handler url quality action sess env).sessionAfter =
          some (sess.getD 0 + 1)) ∧
    ((∃ e, download_video url quality env = .error e) →
        (download_handler url quality action sess env).sessionAfter =
          some (sess.getD 0)) := by
  have hnd : ¬ MAX_DOWNLOADS_PER_SESSION ≤ sess.getD 0 := Nat.not_le.mpr hd
  have ha' : ¬ action = ['g', 'e', 't', 'I', 'n', 'f', 'o'] := by simpa using ha
  constructor
  · rintro ⟨r, hr⟩
    simp [download_handler, hu, hq, hv, hnd, ha', hr]
  · rintro ⟨e, he⟩
    simp [download_handler, hu, hq, hv, hnd, ha', he]

theorem C2_witness :
    ((∃ r, download_video "https://youtu.be/abc".toList "320".toList sampleEnvOk = .ok r) →
        (download_handler "https://youtu.be/abc".toList "320".toList "download".toList
          (some 2) sampleEnvOk).sessionAfter = some 3) ∧
    ((∃ e, download_video "https://youtu.be/abc".toList "320".toList sampleEnvOk = .error e) →
        (download_handler "https://youtu.be/abc".toList "320".toList "download".toList
          (some 2) sampleEnvOk).sessionAfter = some 2) :=
  C2_increment_only_after_success _ _ _ _ _ (by decide) (by decide) (by decide)
    (by decide) (by decide)

/-! ## Lemmas about the progress stream -/

@[simp] theorem progEvt_progress (d : Str) (p : Int) (m : Str) :
    (progEvt d p m).progress = p := rfl

@[simp] theorem progEvt_error (d : Str) (p : Int) (m : Str) :
    (progEvt d p m).error = none := rfl

@[simp] theorem progEvt_message (d : Str) (p : Int) (m : Str) :
    (progEvt d p m).message = some m := rfl

@[simp] theorem errEvt_progress (d m : Str) : (errEvt d m).progress = -1 := rfl

@[simp] theorem errEvt_error (d m : Str) : (errEvt d m).error = some m := rfl

@[simp] theorem doneEvt_progress (d m : Str) (pl : Payload) :
    (doneEvt d m pl).progress = 100 := rfl

@[simp] theorem doneEvt_error (d m : Str) (pl : Payload) :
    (doneEvt d m pl).error = none := rfl

@[simp] theorem doneEvt_data (d m : Str) (pl : Payload) :
    (doneEvt d m pl).data = some pl := rfl

/-- An error raised by `get_video_info` is always one of three fixed non-empty
messages. -/
theorem get_video_info_error_ne_nil {url : Str} {raw : Except Str VideoInfo}
    {m : Str} (h : get_video_info url raw = .error m) : m ≠ [] := by
  rw [get_video_info.eq_def] at h
  cases raw with
  | ok i => simp at h
  | error e =>
    simp only [] at h
    split at h
    · injection h with h2
      rw [← h2]
      decide
    · split at h
      · injection h with h2
        rw [← h2]
        decide
      · split at h
        · injection h with h2
          rw [← h2]
          decide
        · simp at h

/-- When a failing stream is a run of non-terminal events followed by a single
terminal error event, the claimed terminal-event properties hold. -/
theorem terminal_event_facts (init : List Event) (dlid m : Str)
    (hinit : ∀ e ∈ init, ¬ e.progress = -1) (hm : m ≠ []) :
    ∀ e ∈ init ++ [errEvt dlid m], e.progress = -1 →
      ((init ++ [errEvt dlid m]).filter (fun x => x.progress == -1)).length = 1 ∧
      (init ++ [errEvt dlid m]).getLast? = some e ∧
      ∃ m', e.error = some m' ∧ m' ≠ [] := by
  intro e he hp
  have hef : List.filter (fun x => x.progress == -1) init = [] := by
    rw [List.filter_eq_nil_iff]
    intro a ha
    simp [hinit a ha]
  have he' : e = errEvt dlid m := by
    rcases List.mem_append.mp he with h1 | h1
    · exact absurd hp (hinit e h1)
    · simpa using h1
  refine ⟨?_, ?_, m, ?_, hm⟩
  · rw [List.filter_append, hef]
    simp
  · rw [List.getLast?_append]
    simp [he']
  · rw [he']
    simp

/-! ## Claim C4: failing streaming jobs -/

/-- C4: whenever a streaming job emits a terminal event (`progress = -1`),
that event is unique, is the last event of the stream, and carries a non-empty
error message — provided the raw messages of external failures are non-empty
(the three remapped metadata errors are non-empty constants regardless). -/
theorem C4_failing_stream_single_terminal (url quality dlid : Str) (env : DlEnv)
    (hde : ∀ m, env.downloadErr = some m → m ≠ [])
    (hre : ∀ m, env.renameErr = some m → m ≠ []) :
    ∀ e ∈ download_progress_handler url quality dlid env, e.progress = -1 →
      ((download_progress_handler url quality dlid env).filter
          (fun x => x.progress == -1)).length = 1 ∧
      (download_progress_handler url quality dlid env).getLast? = some e ∧
      ∃ m, e.error = some m ∧ m ≠ [] := by
  by_cases hu : url = []
  · rw [download_progress_handler, if_pos hu]
    have := terminal_event_facts [] dlid "URL is required".toList (by simp) (by decide)
    simpa using this
  · rw [download_progress_handler, if_neg hu]
    by_cases hv : is_valid_youtube_url url = true
    · rw [if_neg (by simp [hv])]
      simp only [progress_stream]
      cases hinfo : get_video_info url env.infoRaw with
      | error m =>
        exact terminal_event_facts [progEvt dlid 0 _, progEvt dlid 10 _] dlid m
          (by intro e he; simp at he; rcases he with rfl | rfl <;> simp)
          (get_video_info_error_ne_nil hinfo)
      | ok info =>
        cases hdl : env.downloadErr with
        | some m =>
          exact terminal_event_facts
            [progEvt dlid 0 _, progEvt dlid 10 _, progEvt dlid 25 _, progEvt dlid 40 _]
            dlid m
            (by intro e he; simp at he; rcases he with rfl | rfl | rfl | rfl <;> simp)
            (hde m hdl)
        | none =>
          cases hfd : env.found with
          | none =>
            exact terminal_event_facts
              [progEvt dlid 0 _, progEvt dlid 10 _, progEvt dlid 25 _,
               progEvt dlid 40 _, progEvt dlid 80 _]
              dlid "Download failed: File not found".toList
              (by intro e he; simp at he; rcases he with rfl | rfl | rfl | rfl | rfl <;> simp)
              (by decide)
          | some f =>
            cases hex : env.foundExists with
            | false =>
              simp only [Bool.not_false]
              rw [if_pos trivial]
              exact terminal_event_facts
                [progEvt dlid 0 _, progEvt dlid 10 _, progEvt dlid 25 _,
                 progEvt dlid 40 _, progEvt dlid 80 _]
                dlid "Download failed: File not found".toList
                (by intro e he; simp at he; rcases he with rfl | rfl | rfl | rfl | rfl <;> simp)
                (by decide)
            | true =>
              simp only [Bool.not_true]
              rw [if_neg (show ¬ (false : Bool) = true from by simp)]
              cases hrn : env.renameErr with
              | some m =>
                exact terminal_event_facts
                  [progEvt dlid 0 _, progEvt dlid 10 _, progEvt dlid 25 _,
                   progEvt dlid 40 _, progEvt dlid 80 _, progEvt dlid 90 _]
                  dlid m
                  (by intro e he; simp at he
                      rcases he with rfl | rfl | rfl | rfl | rfl | rfl <;> simp)
                  (hre m hrn)
              | none =>
                intro e he hp
                exfalso
                simp at he
                rcases he with rfl | rfl | rfl | rfl | rfl | rfl | rfl | rfl <;>
                  simp at hp
    · rw [if_pos (by simp [hv])]
      have := terminal_event_facts [] dlid "Invalid YouTube URL".toList (by simp) (by decide)
      simpa using this

theorem C4_witness :
    (∀ m, sampleEnvDlFail.downloadErr = some m → m ≠ []) ∧
    (∀ m, sampleEnvDlFail.renameErr = some m → m ≠ []) ∧
    ∀ e ∈ download_progress_handler "https://youtu.be/abc".toList "320".toList
        "id7".toList sampleEnvDlFail, e.progress = -1 →
      ((download_progress_handler "https://youtu.be/abc".toList "320".toList
          "id7".toList sampleEnvDlFail).filter (fun x => x.progress == -1)).length = 1 ∧
      (download_progress_handler "https://youtu.be/abc".toList "320".toList
          "id7".toList sampleEnvDlFail).getLast? = some e ∧
      ∃ m, e.error = some m ∧ m ≠ [] :=
  ⟨by decide, by decide,
   C4_failing_stream_single_terminal _ _ _ _ (by decide) (by decide)⟩

/-! ## Claim C7: successful streaming jobs -/

/-- C7: a streaming job in which every step succeeds emits exactly the
milestone sequence 0, 10, 25, 40, 80, 90, 95, 100 (non-decreasing, ending at
100), and the final event carries a result payload whose filename is the
sanitized resolved title followed by `.mp3`. -/
theorem C7_success_stream_milestones (url quality dlid : Str) (env : DlEnv)
    (info : VideoInfo) (f : Str)
    (hu : url ≠ []) (hv : is_valid_youtube_url url = true)
    (hinfo : get_video_info url env.infoRaw = .ok info)
    (hdl : env.downloadErr = none) (hfd : env.found = some f)
    (hex : env.foundExists = true) (hrn : env.renameErr = none) :
    (download_progress_handler url quality dlid env).map (fun e => e.progress) =
        [0, 10, 25, 40, 80, 90, 95, 100] ∧
      ∃ e pl, (download_progress_handler url quality dlid env).getLast? = some e ∧
        e.data = some pl ∧
        pl.filename = sanitize_filename info.title ++ ".mp3".toList := by
  rw [download_progress_handler, if_neg hu, if_neg (by simp [hv])]
  simp only [progress_stream, hinfo, hdl, hfd, hex, Bool.not_true]
  rw [if_neg (show ¬ (false : Bool) = true from by simp)]
  rw [hrn]
  constructor
  · simp
  · refine ⟨doneEvt dlid "Download completed!".toList
        { success := true
          downloadUrl := "downloads/".toList ++ (sanitize_filename info.title ++ ".mp3".toList)
          filename := sanitize_filename info.title ++ ".mp3".toList
          title := info.title
          filesize := env.filesize }, _, ?_, rfl, rfl⟩
    rfl

theorem C7_witness :
    (download_progress_handler "https://youtu.be/abc".toList "320".toList "id9".toList
        sampleEnvOk).map (fun e => e.progress) = [0, 10, 25, 40, 80, 90, 95, 100] ∧
      ∃ e pl, (download_progress_handler "https://youtu.be/abc".toList "320".toList
          "id9".toList sampleEnvOk).getLast? = some e ∧
        e.data = some pl ∧
        pl.filename = sanitize_filename sampleInfo.title ++ ".mp3".toList :=
  C7_success_stream_milestones _ _ _ _ sampleInfo "temp_1700000000.mp3".toList
    (by decide) (by decide) rfl rfl rfl rfl rfl

/-! ## Claim C1: where quality is validated -/

/-- C1 (counterexample): the streaming entry point does not validate quality:
with the invalid quality `"999"` and a valid URL, the stream still reaches
metadata resolution and emits the progress-25 event. -/
theorem C1_counterexample :
    ("999".toList ∉ ALLOWED_QUALITIES) ∧
      (download_progress_handler "https://youtu.be/abc123".toList "999".toList
          "id2".toList sampleEnvOk).any (fun e => e.progress == 25) = true := by
  decide

/-- C1 (amended): quality is validated only on the synchronous entry point,
where a quality outside {128,192,256,320} is rejected with a client error
before any external call; the streaming entry point never validates quality
and proceeds to metadata resolution for any quality value. -/
theorem C1_quality_validation_sync_only :
    (∀ url quality action sess env, quality ∉ ALLOWED_QUALITIES →
        (download_handler url quality action sess env).status = 400 ∧
        (download_handler url quality action sess env).success = false ∧
        (download_handler url quality action sess env).externalCalled = false) ∧
    (∀ url quality dlid env info, url ≠ [] → is_valid_youtube_url url = true →
        get_video_info url env.infoRaw = .ok info →
        ∃ e ∈ download_progress_handler url quality dlid env, e.progress = 25) := by
  constructor
  · intro url q a sess env hq
    by_cases hu : url = []
    · simp [download_handler, hu, rejectOutcome]
    · simp [download_handler, hu, hq, rejectOutcome]
  · intro url q dlid env info hu hv hinfo
    rw [download_progress_handler, if_neg hu, if_neg (by simp [hv])]
    simp only [progress_stream, hinfo]
    cases hdl : env.downloadErr with
    | some m =>
      exact ⟨progEvt dlid 25 ("Starting download: ".toList ++ info.title), by simp, rfl⟩
    | none =>
      cases hfd : env.found with
      | none =>
        exact ⟨progEvt dlid 25 ("Starting download: ".toList ++ info.title), by simp, rfl⟩
      | some f =>
        cases hex : env.foundExists with
        | false =>
          simp only [Bool.not_false]
          rw [if_pos trivial]
          exact ⟨progEvt dlid 25 ("Starting download: ".toList ++ info.title), by simp, rfl⟩
        | true =>
          simp only [Bool.not_true]
          rw [if_neg (show ¬ (false : Bool) = true from by simp)]
          cases hrn : env.renameErr with
          | some m =>
            exact ⟨progEvt dlid 25 ("Starting download: ".toList ++ info.title), by simp, rfl⟩
          | none =>
            exact ⟨progEvt dlid 25 ("Starting download: ".toList ++ info.title), by simp, rfl⟩

theorem C1_witness :
    ((download_handler "https://youtu.be/abc".toList "999".toList "download".toList
        (some 0) sampleEnvOk).status = 400 ∧
      (download_handler "https://youtu.be/abc".toList "999".toList "download".toList
        (some 0) sampleEnvOk).success = false ∧
      (download_handler "https://youtu.be/abc".toList "999".toList "download".toList
        (some 0) sampleEnvOk).externalCalled = false) ∧
    ∃ e ∈ download_progress_handler "https://youtu.be/abc".toList "999".toList
        "id3".toList sampleEnvOk, e.progress = 25 :=
  ⟨C1_quality_validation_sync_only.1 _ _ _ _ _ (by decide),
   C1_quality_validation_sync_only.2 _ _ _ _ sampleInfo (by decide) (by decide) rfl⟩

end YT2MP3
